import Mathlib

/-!
Verification of the angle model of `src/clock.js`, an animated Swiss Federal
Railways clock widget.  The file embeds the data model (clock configuration
and wall-clock time samples) and the four mathematical functions of the
source — `computeSecondsAngle`, `computeMinutesAngle`, `computeHoursAngle`
and `rotate` — over the real numbers, and proves the stated properties of
the motion formulas: the phase split and boundary jump of the second hand,
the damped-oscillation formula of the minute hand, the settle-only
correction of the hour hand, continuity, settling, nonnegativity, and the
rotation round trip.
-/

namespace ClockJS

/-- A 2D point, as the plain `{x, y}` objects used throughout `clock.js`. -/
@[ext]
structure Point where
  x : ℝ
  y : ℝ

/-- A wall-clock time sample: the four fields of a JS `Date` that the angle
methods read (`getHours`, `getMinutes`, `getSeconds`, `getMilliseconds`). -/
structure TimeSample where
  hours : ℝ
  minutes : ℝ
  seconds : ℝ
  milliseconds : ℝ

/-- Width and height of an hour or minute marker (`shape.hour_marker`,
`shape.minute_marker` in `DEFAULT_OPTIONS_`). -/
structure MarkerShape where
  width : ℝ
  height : ℝ

/-- One part (base or top) of a two-part hand shape. -/
structure HandPart where
  width : ℝ
  height : ℝ

/-- Shape of the hour or minute hand (`shape.hour_hand`, `shape.minute_hand`). -/
structure TwoPartHandShape where
  base : HandPart
  top : HandPart

/-- Shape of the second hand (`shape.second_hand`). -/
structure SecondHandShape where
  width : ℝ
  base_height : ℝ
  top_height : ℝ
  top_radius : ℝ

/-- The `shape` configuration block of `DEFAULT_OPTIONS_`. -/
structure Shape where
  marker_radius : ℝ
  hour_marker : MarkerShape
  minute_marker : MarkerShape
  hour_hand : TwoPartHandShape
  minute_hand : TwoPartHandShape
  second_hand : SecondHandShape

/-- The `style.shadow` configuration block. -/
structure Shadow where
  color : String
  offsetX : ℝ
  offsetY : ℝ
  blur : ℝ

/-- The `style` configuration block: colors and shadow. -/
structure Style where
  background : String
  border : String
  hour_marker : String
  minute_marker : String
  hour_hand : String
  minute_hand : String
  second_hand : String
  shadow : Shadow

/-- The `behavior.second_hand` parameters. -/
structure SecondHandBehavior where
  pause_seconds : ℝ
  decay : ℝ
  decay_seconds : ℝ

/-- The `behavior.minute_hand` parameters. -/
structure MinuteHandBehavior where
  decay : ℝ
  decay_seconds : ℝ
  frequency : ℝ

/-- The `behavior.hour_hand` parameters. -/
structure HourHandBehavior where
  decay : ℝ
  decay_seconds : ℝ

/-- The `behavior` configuration block. -/
structure Behavior where
  second_hand : SecondHandBehavior
  minute_hand : MinuteHandBehavior
  hour_hand : HourHandBehavior

/-- The state of a `clock.Clock` instance that its mathematical methods can
see: the configuration fields set by the constructor (`margin_`, `shape_`,
`behavior_`, `style_` and the repaint interval `interval_`).  The canvas and
drawing context are rendering plumbing with no bearing on the angle model. -/
structure Clock where
  interval_ : ℝ
  margin_ : ℝ
  shape_ : Shape
  behavior_ : Behavior
  style_ : Style

/-- The `behavior` block of `clock.DEFAULT_OPTIONS_` (src/clock.js lines
81-96). -/
def DEFAULT_OPTIONS_behavior : Behavior where
  second_hand := { pause_seconds := 1.5, decay := 0.1, decay_seconds := 0.5 }
  minute_hand := { decay := 0.1, decay_seconds := 0.3, frequency := 6 }
  hour_hand := { decay := 0.1, decay_seconds := 1 }

/-- The `shape` block of `clock.DEFAULT_OPTIONS_` (src/clock.js lines 42-78). -/
def DEFAULT_OPTIONS_shape : Shape where
  marker_radius := 48.5
  hour_marker := { width := 3.5, height := 12.0 }
  minute_marker := { width := 1.4, height := 3.5 }
  hour_hand := { base := { width := 6.4, height := 12.0 },
                 top := { width := 5.2, height := 32.0 } }
  minute_hand := { base := { width := 5.2, height := 12.0 },
                   top := { width := 3.6, height := 46.0 } }
  second_hand := { width := 1.4, base_height := 16.5, top_height := 31.2,
                   top_radius := 5.25 }

/-- The `style` block of `clock.DEFAULT_OPTIONS_` (src/clock.js lines 99-113). -/
def DEFAULT_OPTIONS_style : Style where
  background := "white"
  border := "black"
  hour_marker := "black"
  minute_marker := "black"
  hour_hand := "black"
  minute_hand := "black"
  second_hand := "red"
  shadow := { color := "rgba(0, 0, 0, 0.2)", offsetX := 5, offsetY := 5,
              blur := 2 }

/-- A `clock.Clock` built from `DEFAULT_OPTIONS_` (size 300, fps 30,
margin 0.1): `interval_ = 1000.0 / fps`. -/
noncomputable def defaultClock : Clock where
  interval_ := 1000.0 / 30
  margin_ := 0.1
  shape_ := DEFAULT_OPTIONS_shape
  behavior_ := DEFAULT_OPTIONS_behavior
  style_ := DEFAULT_OPTIONS_style

/-- The sub-minute fractional second count
`now.getMilliseconds() / 1000.0 + now.getSeconds()` computed at the top of
each of the three angle methods. -/
noncomputable def subMinuteSeconds (now : TimeSample) : ℝ :=
  now.milliseconds / 1000 + now.seconds

/-- Embedding of `clock.Clock.prototype.computeSecondsAngle`
(src/clock.js lines 279-290).  The JS test `t >= cycle` becomes
`cycle ≤ t`. -/
noncomputable def Clock.computeSecondsAngle (self : Clock) (now : TimeSample) : ℝ :=
  let cycle := 60 - self.behavior_.second_hand.pause_seconds
  let t := subMinuteSeconds now
  let v := 2 * Real.pi / cycle
  let l := Real.log self.behavior_.second_hand.decay /
           self.behavior_.second_hand.decay_seconds
  if cycle ≤ t then
    let x := t - cycle
    v * x * Real.exp (l * x)
  else
    v * t * (1 - Real.exp (l * t))

/-- Embedding of `clock.Clock.prototype.computeMinutesAngle`
(src/clock.js lines 292-302). -/
noncomputable def Clock.computeMinutesAngle (self : Clock) (now : TimeSample) : ℝ :=
  let delta := Real.pi / 30
  let angle := delta * now.minutes
  let t := subMinuteSeconds now
  let l := Real.log self.behavior_.minute_hand.decay /
           self.behavior_.minute_hand.decay_seconds
  let w := 2 * Real.pi * self.behavior_.minute_hand.frequency
  let wt := w * t
  angle + delta * Real.exp (l * t) * ((l / w) * Real.sin wt - Real.cos wt)

/-- Embedding of `clock.Clock.prototype.computeHoursAngle`
(src/clock.js lines 304-311). -/
noncomputable def Clock.computeHoursAngle (self : Clock) (now : TimeSample) : ℝ :=
  let t := subMinuteSeconds now
  let delta := Real.pi / 360
  let angle := (now.minutes + 60 * now.hours) * delta
  let l := Real.log self.behavior_.hour_hand.decay /
           self.behavior_.hour_hand.decay_seconds
  angle + delta * (l * t - 1) * Real.exp (l * t)

/-- Embedding of `clock.Clock.prototype.rotate` (src/clock.js lines
330-335): standard 2D rotation.  The JS method ignores `this`. -/
noncomputable def Clock.rotate (_self : Clock) (point : Point) (angle : ℝ) : Point where
  x := Real.cos angle * point.x - Real.sin angle * point.y
  y := Real.sin angle * point.x + Real.cos angle * point.y

/-- A call `this.computeSecondsAngle(now)` under explicit state passing.
The method body reads `this.behavior_` and local variables only and assigns
to no field of `this`, so the receiver is returned unchanged beside the
result. -/
noncomputable def Clock.computeSecondsAngleCall (self : Clock)
    (now : TimeSample) : ℝ × Clock :=
  (self.computeSecondsAngle now, self)

/-- A call `this.computeMinutesAngle(now)` under explicit state passing;
the body assigns to no field of `this`. -/
noncomputable def Clock.computeMinutesAngleCall (self : Clock)
    (now : TimeSample) : ℝ × Clock :=
  (self.computeMinutesAngle now, self)

/-- A call `this.computeHoursAngle(now)` under explicit state passing;
the body assigns to no field of `this`. -/
noncomputable def Clock.computeHoursAngleCall (self : Clock)
    (now : TimeSample) : ℝ × Clock :=
  (self.computeHoursAngle now, self)

/-! ### Unfolding lemmas -/

/-- Sweep phase of the second hand: for `t < cycle` the `else` branch runs. -/
lemma computeSecondsAngle_of_lt (c : Clock) (now : TimeSample)
    (h : subMinuteSeconds now < 60 - c.behavior_.second_hand.pause_seconds) :
    c.computeSecondsAngle now =
      2 * Real.pi / (60 - c.behavior_.second_hand.pause_seconds) *
        subMinuteSeconds now *
        (1 - Real.exp (Real.log c.behavior_.second_hand.decay /
          c.behavior_.second_hand.decay_seconds * subMinuteSeconds now)) := by
  simp only [Clock.computeSecondsAngle]
  rw [if_neg (not_le.mpr h)]

/-- Pause phase of the second hand: for `t ≥ cycle` the `then` branch runs. -/
lemma computeSecondsAngle_of_ge (c : Clock) (now : TimeSample)
    (h : 60 - c.behavior_.second_hand.pause_seconds ≤ subMinuteSeconds now) :
    c.computeSecondsAngle now =
      2 * Real.pi / (60 - c.behavior_.second_hand.pause_seconds) *
        (subMinuteSeconds now - (60 - c.behavior_.second_hand.pause_seconds)) *
        Real.exp (Real.log c.behavior_.second_hand.decay /
          c.behavior_.second_hand.decay_seconds *
          (subMinuteSeconds now - (60 - c.behavior_.second_hand.pause_seconds))) := by
  simp only [Clock.computeSecondsAngle]
  rw [if_pos h]

/-- The minute-hand formula, written as in the spec. -/
lemma computeMinutesAngle_eq (c : Clock) (now : TimeSample) :
    c.computeMinutesAngle now =
      Real.pi / 30 * now.minutes +
        Real.pi / 30 *
          Real.exp (Real.log c.behavior_.minute_hand.decay /
            c.behavior_.minute_hand.decay_seconds * subMinuteSeconds now) *
          ((Real.log c.behavior_.minute_hand.decay /
              c.behavior_.minute_hand.decay_seconds /
              (2 * Real.pi * c.behavior_.minute_hand.frequency)) *
            Real.sin (2 * Real.pi * c.behavior_.minute_hand.frequency *
              subMinuteSeconds now) -
            Real.cos (2 * Real.pi * c.behavior_.minute_hand.frequency *
              subMinuteSeconds now)) := by
  simp only [Clock.computeMinutesAngle]

/-- The hour-hand formula, written as in the spec. -/
lemma computeHoursAngle_eq (c : Clock) (now : TimeSample) :
    c.computeHoursAngle now =
      (now.minutes + 60 * now.hours) * (Real.pi / 360) +
        Real.pi / 360 *
          (Real.log c.behavior_.hour_hand.decay /
              c.behavior_.hour_hand.decay_seconds * subMinuteSeconds now - 1) *
          Real.exp (Real.log c.behavior_.hour_hand.decay /
            c.behavior_.hour_hand.decay_seconds * subMinuteSeconds now) := by
  simp only [Clock.computeHoursAngle]

/-- Sub-minute seconds of a sample with zero milliseconds evaluate to the
seconds field. -/
lemma subMinuteSeconds_mk (hr mi t : ℝ) :
    subMinuteSeconds ⟨hr, mi, t, 0⟩ = t := by
  simp [subMinuteSeconds]

/-- The sweep-phase formula is continuous in `t` for any constants. -/
lemma continuous_sweepFormula (v l : ℝ) :
    Continuous fun t : ℝ => v * t * (1 - Real.exp (l * t)) := by
  fun_prop

/-- The seconds angle of a sample with real seconds field `t` and zero
milliseconds, as a single branch on `t`. -/
lemma secondsAngleReal_eq (c : Clock) (hr mi t : ℝ) :
    c.computeSecondsAngle ⟨hr, mi, t, 0⟩ =
      if 60 - c.behavior_.second_hand.pause_seconds ≤ t then
        2 * Real.pi / (60 - c.behavior_.second_hand.pause_seconds) *
          (t - (60 - c.behavior_.second_hand.pause_seconds)) *
          Real.exp (Real.log c.behavior_.second_hand.decay /
            c.behavior_.second_hand.decay_seconds *
            (t - (60 - c.behavior_.second_hand.pause_seconds)))
      else
        2 * Real.pi / (60 - c.behavior_.second_hand.pause_seconds) * t *
          (1 - Real.exp (Real.log c.behavior_.second_hand.decay /
            c.behavior_.second_hand.decay_seconds * t)) := by
  simp only [Clock.computeSecondsAngle, subMinuteSeconds_mk]

/-- A function that sweeps as `v * t * (1 - exp(l*t))` before `cyc` and
pauses as `v * (t - cyc) * exp(l*(t-cyc))` from `cyc` on is continuous at
every point other than `cyc`. -/
lemma sweep_pause_continuousAt_of_ne (v l cyc t : ℝ) (ht : t ≠ cyc) :
    ContinuousAt (fun s : ℝ =>
      if cyc ≤ s then v * (s - cyc) * Real.exp (l * (s - cyc))
      else v * s * (1 - Real.exp (l * s))) t := by
  rcases lt_or_gt_of_ne ht with h | h
  · have hg : Continuous fun s : ℝ => v * s * (1 - Real.exp (l * s)) :=
      continuous_sweepFormula v l
    refine hg.continuousAt.congr ?_
    refine Filter.eventuallyEq_of_mem (Iio_mem_nhds h) fun s hs => ?_
    exact (if_neg (not_le.mpr hs)).symm
  · have hg : Continuous fun s : ℝ => v * (s - cyc) * Real.exp (l * (s - cyc)) := by
      fun_prop
    refine hg.continuousAt.congr ?_
    refine Filter.eventuallyEq_of_mem (Ioi_mem_nhds h) fun s hs => ?_
    exact (if_pos (le_of_lt hs)).symm

/-- The same sweep and pause branches glue discontinuously at `cyc` when
`v > 0`, `l < 0` and `cyc > 0`: the left limit is the nonzero phase-1 value
while the function lands on `0` there. -/
lemma sweep_pause_not_continuousAt (v l cyc : ℝ)
    (hv : 0 < v) (hl : l < 0) (hcyc : 0 < cyc) :
    ¬ ContinuousAt (fun s : ℝ =>
      if cyc ≤ s then v * (s - cyc) * Real.exp (l * (s - cyc))
      else v * s * (1 - Real.exp (l * s))) cyc := by
  intro hcont
  set f : ℝ → ℝ := fun s =>
    if cyc ≤ s then v * (s - cyc) * Real.exp (l * (s - cyc))
    else v * s * (1 - Real.exp (l * s)) with hf
  have hfcyc : f cyc = 0 := by simp [hf]
  have heq : Set.EqOn f (fun s : ℝ => v * s * (1 - Real.exp (l * s)))
      (Set.Iio cyc) := by
    intro s hs
    simp only [hf]
    rw [if_neg (not_le.mpr hs)]
  have h1 : Filter.Tendsto f (nhdsWithin cyc (Set.Iio cyc))
      (nhds (v * cyc * (1 - Real.exp (l * cyc)))) := by
    have hgc : Continuous fun s : ℝ => v * s * (1 - Real.exp (l * s)) :=
      continuous_sweepFormula v l
    exact Filter.Tendsto.congr'
      (Filter.eventuallyEq_of_mem self_mem_nhdsWithin fun s hs => (heq hs).symm)
      ((hgc.tendsto cyc).mono_left nhdsWithin_le_nhds)
  have h2 : Filter.Tendsto f (nhdsWithin cyc (Set.Iio cyc)) (nhds 0) := by
    rw [← hfcyc]
    exact hcont.tendsto.mono_left nhdsWithin_le_nhds
  have huniq : v * cyc * (1 - Real.exp (l * cyc)) = 0 := tendsto_nhds_unique h1 h2
  have hexp : Real.exp (l * cyc) < 1 :=
    Real.exp_lt_one_iff.mpr (mul_neg_of_neg_of_pos hl hcyc)
  have hpos : 0 < v * cyc * (1 - Real.exp (l * cyc)) :=
    mul_pos (mul_pos hv hcyc) (by linarith)
  linarith

/-- With valid second-hand parameters, the seconds angle as a function of
real time is discontinuous at `cycle = 60 - pauseSeconds`. -/
lemma secondsAngle_not_continuousAt (c : Clock) (hr mi : ℝ)
    (hd0 : 0 < c.behavior_.second_hand.decay)
    (hd1 : c.behavior_.second_hand.decay < 1)
    (hds : 0 < c.behavior_.second_hand.decay_seconds)
    (hp1 : c.behavior_.second_hand.pause_seconds < 60) :
    ¬ ContinuousAt (fun t : ℝ => c.computeSecondsAngle ⟨hr, mi, t, 0⟩)
      (60 - c.behavior_.second_hand.pause_seconds) := by
  have hfun : (fun t : ℝ => c.computeSecondsAngle ⟨hr, mi, t, 0⟩) =
      fun t : ℝ =>
        if 60 - c.behavior_.second_hand.pause_seconds ≤ t then
          2 * Real.pi / (60 - c.behavior_.second_hand.pause_seconds) *
            (t - (60 - c.behavior_.second_hand.pause_seconds)) *
            Real.exp (Real.log c.behavior_.second_hand.decay /
              c.behavior_.second_hand.decay_seconds *
              (t - (60 - c.behavior_.second_hand.pause_seconds)))
        else
          2 * Real.pi / (60 - c.behavior_.second_hand.pause_seconds) * t *
            (1 - Real.exp (Real.log c.behavior_.second_hand.decay /
              c.behavior_.second_hand.decay_seconds * t)) :=
    funext fun t => secondsAngleReal_eq c hr mi t
  rw [hfun]
  exact sweep_pause_not_continuousAt _ _ _
    (div_pos (by positivity) (by linarith))
    (div_neg_of_neg_of_pos (Real.log_neg hd0 hd1) hds)
    (by linarith)

/-- With any parameters, the seconds angle as a function of real time is
continuous away from `cycle`. -/
lemma secondsAngle_continuousAt_of_ne (c : Clock) (hr mi t : ℝ)
    (ht : t ≠ 60 - c.behavior_.second_hand.pause_seconds) :
    ContinuousAt (fun t : ℝ => c.computeSecondsAngle ⟨hr, mi, t, 0⟩) t := by
  have hfun := funext fun t => secondsAngleReal_eq c hr mi t
  rw [hfun]
  exact sweep_pause_continuousAt_of_ne _ _ _ _ ht

/-- The minutes angle of a sample with real seconds field `t` and zero
milliseconds is a continuous function of `t`. -/
lemma continuous_minutesAngleReal (c : Clock) (hr mi : ℝ) :
    Continuous fun t : ℝ => c.computeMinutesAngle ⟨hr, mi, t, 0⟩ := by
  have hfun : (fun t : ℝ => c.computeMinutesAngle ⟨hr, mi, t, 0⟩) =
      fun t : ℝ =>
        Real.pi / 30 * mi +
          Real.pi / 30 *
            Real.exp (Real.log c.behavior_.minute_hand.decay /
              c.behavior_.minute_hand.decay_seconds * t) *
            ((Real.log c.behavior_.minute_hand.decay /
                c.behavior_.minute_hand.decay_seconds /
                (2 * Real.pi * c.behavior_.minute_hand.frequency)) *
              Real.sin (2 * Real.pi * c.behavior_.minute_hand.frequency * t) -
              Real.cos (2 * Real.pi * c.behavior_.minute_hand.frequency * t)) := by
    funext t
    rw [computeMinutesAngle_eq, subMinuteSeconds_mk]
  rw [hfun]
  fun_prop

/-- The hours angle of a sample with real seconds field `t` and zero
milliseconds is a continuous function of `t`. -/
lemma continuous_hoursAngleReal (c : Clock) (hr mi : ℝ) :
    Continuous fun t : ℝ => c.computeHoursAngle ⟨hr, mi, t, 0⟩ := by
  have hfun : (fun t : ℝ => c.computeHoursAngle ⟨hr, mi, t, 0⟩) =
      fun t : ℝ =>
        (mi + 60 * hr) * (Real.pi / 360) +
          Real.pi / 360 *
            (Real.log c.behavior_.hour_hand.decay /
                c.behavior_.hour_hand.decay_seconds * t - 1) *
            Real.exp (Real.log c.behavior_.hour_hand.decay /
              c.behavior_.hour_hand.decay_seconds * t) := by
    funext t
    rw [computeHoursAngle_eq, subMinuteSeconds_mk]
  rw [hfun]
  fun_prop

/-- The minutes angle of a sample with real seconds field `t` and zero
milliseconds, as an explicit function of `t`. -/
lemma minutesAngleReal_eq (c : Clock) (hr mi t : ℝ) :
    c.computeMinutesAngle ⟨hr, mi, t, 0⟩ =
      Real.pi / 30 * mi +
        Real.pi / 30 *
          Real.exp (Real.log c.behavior_.minute_hand.decay /
            c.behavior_.minute_hand.decay_seconds * t) *
          ((Real.log c.behavior_.minute_hand.decay /
              c.behavior_.minute_hand.decay_seconds /
              (2 * Real.pi * c.behavior_.minute_hand.frequency)) *
            Real.sin (2 * Real.pi * c.behavior_.minute_hand.frequency * t) -
            Real.cos (2 * Real.pi * c.behavior_.minute_hand.frequency * t)) := by
  rw [computeMinutesAngle_eq, subMinuteSeconds_mk]

/-- The hours angle of a sample with real seconds field `t` and zero
milliseconds, as an explicit function of `t`. -/
lemma hoursAngleReal_eq (c : Clock) (hr mi t : ℝ) :
    c.computeHoursAngle ⟨hr, mi, t, 0⟩ =
      (mi + 60 * hr) * (Real.pi / 360) +
        Real.pi / 360 *
          (Real.log c.behavior_.hour_hand.decay /
              c.behavior_.hour_hand.decay_seconds * t - 1) *
          Real.exp (Real.log c.behavior_.hour_hand.decay /
            c.behavior_.hour_hand.decay_seconds * t) := by
  rw [computeHoursAngle_eq, subMinuteSeconds_mk]

/-- The oscillation term of the minute hand is bounded by a decaying
exponential envelope: the deviation from the base target obeys
`|angle - angle0| ≤ (π/30) * (|λ|/ω + 1) * exp(λ*t)`. -/
lemma minutesAngle_deviation_bound (c : Clock) (hr mi t : ℝ)
    (hW : 0 < 2 * Real.pi * c.behavior_.minute_hand.frequency) :
    |c.computeMinutesAngle ⟨hr, mi, t, 0⟩ - Real.pi / 30 * mi| ≤
      Real.pi / 30 *
        (|Real.log c.behavior_.minute_hand.decay /
            c.behavior_.minute_hand.decay_seconds| /
          (2 * Real.pi * c.behavior_.minute_hand.frequency) + 1) *
        Real.exp (Real.log c.behavior_.minute_hand.decay /
          c.behavior_.minute_hand.decay_seconds * t) := by
  rw [minutesAngleReal_eq, add_sub_cancel_left]
  rw [abs_mul, abs_mul]
  rw [abs_of_nonneg (by positivity : (0 : ℝ) ≤ Real.pi / 30)]
  rw [abs_of_nonneg (Real.exp_pos _).le]
  have hsin : |Real.sin (2 * Real.pi * c.behavior_.minute_hand.frequency * t)| ≤ 1 :=
    abs_le.mpr ⟨Real.neg_one_le_sin _, Real.sin_le_one _⟩
  have hcos : |Real.cos (2 * Real.pi * c.behavior_.minute_hand.frequency * t)| ≤ 1 :=
    abs_le.mpr ⟨Real.neg_one_le_cos _, Real.cos_le_one _⟩
  have hS : |(Real.log c.behavior_.minute_hand.decay /
        c.behavior_.minute_hand.decay_seconds /
        (2 * Real.pi * c.behavior_.minute_hand.frequency)) *
        Real.sin (2 * Real.pi * c.behavior_.minute_hand.frequency * t) -
        Real.cos (2 * Real.pi * c.behavior_.minute_hand.frequency * t)| ≤
      |Real.log c.behavior_.minute_hand.decay /
          c.behavior_.minute_hand.decay_seconds| /
        (2 * Real.pi * c.behavior_.minute_hand.frequency) + 1 := by
    have h1 := abs_sub
      ((Real.log c.behavior_.minute_hand.decay /
          c.behavior_.minute_hand.decay_seconds /
          (2 * Real.pi * c.behavior_.minute_hand.frequency)) *
        Real.sin (2 * Real.pi * c.behavior_.minute_hand.frequency * t))
      (Real.cos (2 * Real.pi * c.behavior_.minute_hand.frequency * t))
    rw [abs_mul, abs_div, abs_of_pos hW] at h1
    have h2 : |Real.log c.behavior_.minute_hand.decay /
          c.behavior_.minute_hand.decay_seconds| /
          (2 * Real.pi * c.behavior_.minute_hand.frequency) *
          |Real.sin (2 * Real.pi * c.behavior_.minute_hand.frequency * t)| ≤
        |Real.log c.behavior_.minute_hand.decay /
          c.behavior_.minute_hand.decay_seconds| /
          (2 * Real.pi * c.behavior_.minute_hand.frequency) :=
      mul_le_of_le_one_right (by positivity) hsin
    linarith
  calc Real.pi / 30 *
        Real.exp (Real.log c.behavior_.minute_hand.decay /
          c.behavior_.minute_hand.decay_seconds * t) *
        |(Real.log c.behavior_.minute_hand.decay /
            c.behavior_.minute_hand.decay_seconds /
            (2 * Real.pi * c.behavior_.minute_hand.frequency)) *
          Real.sin (2 * Real.pi * c.behavior_.minute_hand.frequency * t) -
          Real.cos (2 * Real.pi * c.behavior_.minute_hand.frequency * t)| ≤
      Real.pi / 30 *
        Real.exp (Real.log c.behavior_.minute_hand.decay /
          c.behavior_.minute_hand.decay_seconds * t) *
        (|Real.log c.behavior_.minute_hand.decay /
            c.behavior_.minute_hand.decay_seconds| /
          (2 * Real.pi * c.behavior_.minute_hand.frequency) + 1) :=
        mul_le_mul_of_nonneg_left hS (by positivity)
    _ = Real.pi / 30 *
        (|Real.log c.behavior_.minute_hand.decay /
            c.behavior_.minute_hand.decay_seconds| /
          (2 * Real.pi * c.behavior_.minute_hand.frequency) + 1) *
        Real.exp (Real.log c.behavior_.minute_hand.decay /
          c.behavior_.minute_hand.decay_seconds * t) := by ring

/-- The correction term of the hour hand is bounded by a linear-times-
exponential envelope for `t ≥ 0`. -/
lemma hoursAngle_deviation_bound (c : Clock) (hr mi t : ℝ) (ht : 0 ≤ t) :
    |c.computeHoursAngle ⟨hr, mi, t, 0⟩ - (mi + 60 * hr) * (Real.pi / 360)| ≤
      Real.pi / 360 *
        (|Real.log c.behavior_.hour_hand.decay /
            c.behavior_.hour_hand.decay_seconds| * t + 1) *
        Real.exp (Real.log c.behavior_.hour_hand.decay /
          c.behavior_.hour_hand.decay_seconds * t) := by
  rw [hoursAngleReal_eq, add_sub_cancel_left]
  rw [abs_mul, abs_mul]
  rw [abs_of_nonneg (by positivity : (0 : ℝ) ≤ Real.pi / 360)]
  rw [abs_of_nonneg (Real.exp_pos _).le]
  have h1 : |Real.log c.behavior_.hour_hand.decay /
        c.behavior_.hour_hand.decay_seconds * t - 1| ≤
      |Real.log c.behavior_.hour_hand.decay /
          c.behavior_.hour_hand.decay_seconds| * t + 1 := by
    have h2 := abs_sub
      (Real.log c.behavior_.hour_hand.decay /
        c.behavior_.hour_hand.decay_seconds * t) (1 : ℝ)
    rw [abs_mul, abs_of_nonneg ht, abs_one] at h2
    exact h2
  calc Real.pi / 360 *
        |Real.log c.behavior_.hour_hand.decay /
          c.behavior_.hour_hand.decay_seconds * t - 1| *
        Real.exp (Real.log c.behavior_.hour_hand.decay /
          c.behavior_.hour_hand.decay_seconds * t) ≤
      Real.pi / 360 *
        (|Real.log c.behavior_.hour_hand.decay /
            c.behavior_.hour_hand.decay_seconds| * t + 1) *
        Real.exp (Real.log c.behavior_.hour_hand.decay /
          c.behavior_.hour_hand.decay_seconds * t) :=
      mul_le_mul_of_nonneg_right
        (mul_le_mul_of_nonneg_left h1 (by positivity)) (Real.exp_pos _).le
    _ = _ := rfl

/-- A decaying exponential `exp(l*t)` with `l < 0` vanishes at infinity. -/
lemma tendsto_exp_linear (l : ℝ) (hl : l < 0) :
    Filter.Tendsto (fun t : ℝ => Real.exp (l * t)) Filter.atTop (nhds 0) := by
  have h1 : Filter.Tendsto (fun t : ℝ => l * t) Filter.atTop Filter.atBot := by
    simpa using (Filter.tendsto_const_mul_atBot_of_neg hl).mpr Filter.tendsto_id
  exact Real.tendsto_exp_atBot.comp h1

/-- A constant multiple of a decaying exponential vanishes at infinity. -/
lemma tendsto_const_mul_exp (C l : ℝ) (hl : l < 0) :
    Filter.Tendsto (fun t : ℝ => C * Real.exp (l * t)) Filter.atTop (nhds 0) := by
  simpa using (tendsto_exp_linear l hl).const_mul C

/-- A linear factor does not save a decaying exponential:
`t * exp(l*t) → 0` as `t → ∞` when `l < 0`. -/
lemma tendsto_id_mul_exp (l : ℝ) (hl : l < 0) :
    Filter.Tendsto (fun t : ℝ => t * Real.exp (l * t)) Filter.atTop (nhds 0) := by
  have hl0 : (0 : ℝ) < -l := neg_pos.mpr hl
  have base : Filter.Tendsto (fun x : ℝ => x * Real.exp (-x))
      Filter.atTop (nhds 0) := by
    simpa using Real.tendsto_pow_mul_exp_neg_atTop_nhds_zero 1
  have hcomp0 : Filter.Tendsto (fun t : ℝ => -l * t) Filter.atTop Filter.atTop := by
    simpa using (Filter.tendsto_const_mul_atTop_of_pos hl0).mpr Filter.tendsto_id
  have hcomp : Filter.Tendsto (fun t : ℝ => -l * t * Real.exp (-(-l * t)))
      Filter.atTop (nhds 0) := base.comp hcomp0
  have harg : ∀ t : ℝ, -(-l * t) = l * t := fun t => by ring
  simp only [harg] at hcomp
  have h2 := hcomp.const_mul (1 / -l)
  rw [mul_zero] at h2
  refine h2.congr fun t => ?_
  have hlne : l ≠ 0 := ne_of_lt hl
  field_simp
  ring

/-- An affine factor times a decaying exponential vanishes at infinity. -/
lemma tendsto_affine_mul_exp (C a l : ℝ) (hl : l < 0) :
    Filter.Tendsto (fun t : ℝ => C * (a * t + 1) * Real.exp (l * t))
      Filter.atTop (nhds 0) := by
  have h := (((tendsto_id_mul_exp l hl).const_mul a).add
    (tendsto_exp_linear l hl)).const_mul C
  rw [mul_zero, add_zero, mul_zero] at h
  exact h.congr fun t => by ring

/-! ### Claim theorems -/

/-- C1: for every time sample with sub-minute seconds `t ∈ [0, 60)` and valid
second-hand parameters (`0 < decay < 1`, `decaySeconds > 0`,
`0 ≤ pauseSeconds < 60`), with `cycle = 60 - pauseSeconds`, `v = 2π / cycle`
and `λ = ln(decay) / decaySeconds`, the seconds angle equals
`v * t * (1 - exp(λ*t))` whenever `t < cycle`, and equals
`v * x * exp(λ*x)` with `x = t - cycle` whenever `t ≥ cycle`. -/
theorem secondsAngle_phase_split (c : Clock) (now : TimeSample)
    (hd0 : 0 < c.behavior_.second_hand.decay)
    (hd1 : c.behavior_.second_hand.decay < 1)
    (hds : 0 < c.behavior_.second_hand.decay_seconds)
    (hp0 : 0 ≤ c.behavior_.second_hand.pause_seconds)
    (hp1 : c.behavior_.second_hand.pause_seconds < 60)
    (ht0 : 0 ≤ subMinuteSeconds now) (ht1 : subMinuteSeconds now < 60) :
    (subMinuteSeconds now < 60 - c.behavior_.second_hand.pause_seconds →
      c.computeSecondsAngle now =
        2 * Real.pi / (60 - c.behavior_.second_hand.pause_seconds) *
          subMinuteSeconds now *
          (1 - Real.exp (Real.log c.behavior_.second_hand.decay /
            c.behavior_.second_hand.decay_seconds * subMinuteSeconds now))) ∧
    (60 - c.behavior_.second_hand.pause_seconds ≤ subMinuteSeconds now →
      c.computeSecondsAngle now =
        2 * Real.pi / (60 - c.behavior_.second_hand.pause_seconds) *
          (subMinuteSeconds now - (60 - c.behavior_.second_hand.pause_seconds)) *
          Real.exp (Real.log c.behavior_.second_hand.decay /
            c.behavior_.second_hand.decay_seconds *
            (subMinuteSeconds now - (60 - c.behavior_.second_hand.pause_seconds)))) :=
  ⟨fun h => computeSecondsAngle_of_lt c now h,
   fun h => computeSecondsAngle_of_ge c now h⟩

/-- Witness for C1: the default clock one second into the minute is in the
sweep phase and satisfies the phase-1 formula. -/
theorem secondsAngle_phase_split_witness :
    defaultClock.computeSecondsAngle ⟨0, 0, 1, 0⟩ =
      2 * Real.pi / (60 - defaultClock.behavior_.second_hand.pause_seconds) *
        subMinuteSeconds ⟨0, 0, 1, 0⟩ *
        (1 - Real.exp (Real.log defaultClock.behavior_.second_hand.decay /
          defaultClock.behavior_.second_hand.decay_seconds *
          subMinuteSeconds ⟨0, 0, 1, 0⟩)) :=
  (secondsAngle_phase_split defaultClock ⟨0, 0, 1, 0⟩
      (by norm_num [defaultClock, DEFAULT_OPTIONS_behavior])
      (by norm_num [defaultClock, DEFAULT_OPTIONS_behavior])
      (by norm_num [defaultClock, DEFAULT_OPTIONS_behavior])
      (by norm_num [defaultClock, DEFAULT_OPTIONS_behavior])
      (by norm_num [defaultClock, DEFAULT_OPTIONS_behavior])
      (by norm_num [subMinuteSeconds])
      (by norm_num [subMinuteSeconds])).1
    (by norm_num [subMinuteSeconds, defaultClock, DEFAULT_OPTIONS_behavior])

/-- C2: for every minute-of-hour `m ∈ [0, 60)`, sub-minute seconds
`t ∈ [0, 60)` and valid minute-hand parameters, the minutes angle equals
`(π/30)*m + (π/30) * exp(λt) * ((λ/ω) * sin(ωt) - cos(ωt))` with
`λ = ln(decay)/decaySeconds` and `ω = 2π*frequency`; in particular at
`t = 0` with `m = 0`, `frequency = 6`, `decay = .1`, `decaySeconds = .3`
(the default minute hand) the result is exactly `-π/30`. -/
theorem minutesAngle_formula (c : Clock) (now : TimeSample)
    (hd0 : 0 < c.behavior_.minute_hand.decay)
    (hd1 : c.behavior_.minute_hand.decay < 1)
    (hds : 0 < c.behavior_.minute_hand.decay_seconds)
    (hf : 0 < c.behavior_.minute_hand.frequency)
    (hm0 : 0 ≤ now.minutes) (hm1 : now.minutes < 60)
    (ht0 : 0 ≤ subMinuteSeconds now) (ht1 : subMinuteSeconds now < 60) :
    c.computeMinutesAngle now =
      Real.pi / 30 * now.minutes +
        Real.pi / 30 *
          Real.exp (Real.log c.behavior_.minute_hand.decay /
            c.behavior_.minute_hand.decay_seconds * subMinuteSeconds now) *
          ((Real.log c.behavior_.minute_hand.decay /
              c.behavior_.minute_hand.decay_seconds /
              (2 * Real.pi * c.behavior_.minute_hand.frequency)) *
            Real.sin (2 * Real.pi * c.behavior_.minute_hand.frequency *
              subMinuteSeconds now) -
            Real.cos (2 * Real.pi * c.behavior_.minute_hand.frequency *
              subMinuteSeconds now)) ∧
    defaultClock.computeMinutesAngle ⟨0, 0, 0, 0⟩ = -(Real.pi / 30) := by
  constructor
  · exact computeMinutesAngle_eq c now
  · rw [computeMinutesAngle_eq]
    rw [subMinuteSeconds_mk]
    simp

/-- Witness for C2 at the default clock, minute 0, one second in. -/
theorem minutesAngle_formula_witness :
    defaultClock.computeMinutesAngle ⟨0, 0, 1, 0⟩ =
      Real.pi / 30 * (0 : ℝ) +
        Real.pi / 30 *
          Real.exp (Real.log defaultClock.behavior_.minute_hand.decay /
            defaultClock.behavior_.minute_hand.decay_seconds *
            subMinuteSeconds ⟨0, 0, 1, 0⟩) *
          ((Real.log defaultClock.behavior_.minute_hand.decay /
              defaultClock.behavior_.minute_hand.decay_seconds /
              (2 * Real.pi * defaultClock.behavior_.minute_hand.frequency)) *
            Real.sin (2 * Real.pi * defaultClock.behavior_.minute_hand.frequency *
              subMinuteSeconds ⟨0, 0, 1, 0⟩) -
            Real.cos (2 * Real.pi * defaultClock.behavior_.minute_hand.frequency *
              subMinuteSeconds ⟨0, 0, 1, 0⟩)) :=
  (minutesAngle_formula defaultClock ⟨0, 0, 1, 0⟩
      (by norm_num [defaultClock, DEFAULT_OPTIONS_behavior])
      (by norm_num [defaultClock, DEFAULT_OPTIONS_behavior])
      (by norm_num [defaultClock, DEFAULT_OPTIONS_behavior])
      (by norm_num [defaultClock, DEFAULT_OPTIONS_behavior])
      le_rfl (by norm_num)
      (by norm_num [subMinuteSeconds])
      (by norm_num [subMinuteSeconds])).1

/-- C3: for every hour-of-day `h`, minute-of-hour `m ∈ [0, 60)`, sub-minute
seconds `t ∈ [0, 60)` and valid hour-hand parameters, the hours angle equals
`(π/360)*(m + 60*h) + (π/360) * (λt - 1) * exp(λt)` with
`λ = ln(decay)/decaySeconds`; in particular at `t = 0` the correction term
is exactly `-π/360`. -/
theorem hoursAngle_formula (c : Clock) (now : TimeSample)
    (hd0 : 0 < c.behavior_.hour_hand.decay)
    (hd1 : c.behavior_.hour_hand.decay < 1)
    (hds : 0 < c.behavior_.hour_hand.decay_seconds)
    (hm0 : 0 ≤ now.minutes) (hm1 : now.minutes < 60)
    (ht0 : 0 ≤ subMinuteSeconds now) (ht1 : subMinuteSeconds now < 60) :
    c.computeHoursAngle now =
      (now.minutes + 60 * now.hours) * (Real.pi / 360) +
        Real.pi / 360 *
          (Real.log c.behavior_.hour_hand.decay /
              c.behavior_.hour_hand.decay_seconds * subMinuteSeconds now - 1) *
          Real.exp (Real.log c.behavior_.hour_hand.decay /
            c.behavior_.hour_hand.decay_seconds * subMinuteSeconds now) ∧
    (subMinuteSeconds now = 0 →
      c.computeHoursAngle now =
        (now.minutes + 60 * now.hours) * (Real.pi / 360) - Real.pi / 360) := by
  refine ⟨computeHoursAngle_eq c now, fun h0 => ?_⟩
  rw [computeHoursAngle_eq, h0]
  simp
  ring

/-- Witness for C3 at the default clock, 10:30:00 sharp. -/
theorem hoursAngle_formula_witness :
    defaultClock.computeHoursAngle ⟨10, 30, 0, 0⟩ =
      ((30 : ℝ) + 60 * 10) * (Real.pi / 360) - Real.pi / 360 :=
  (hoursAngle_formula defaultClock ⟨10, 30, 0, 0⟩
      (by norm_num [defaultClock, DEFAULT_OPTIONS_behavior])
      (by norm_num [defaultClock, DEFAULT_OPTIONS_behavior])
      (by norm_num [defaultClock, DEFAULT_OPTIONS_behavior])
      (by norm_num) (by norm_num)
      (by norm_num [subMinuteSeconds])
      (by norm_num [subMinuteSeconds])).2
    (by norm_num [subMinuteSeconds])

/-- C7: rotating a point by `θ` and then by `-θ` returns the point, exactly,
over real arithmetic. -/
theorem rotate_roundtrip (c : Clock) (p : Point) (θ : ℝ) :
    c.rotate (c.rotate p θ) (-θ) = p := by
  have h := Real.sin_sq_add_cos_sq θ
  ext
  · simp only [Clock.rotate, Real.cos_neg, Real.sin_neg]
    linear_combination p.x * h
  · simp only [Clock.rotate, Real.cos_neg, Real.sin_neg]
    linear_combination p.y * h

/-- Witness for C7 at a concrete point and angle. -/
theorem rotate_roundtrip_witness :
    defaultClock.rotate (defaultClock.rotate ⟨3, 4⟩ (Real.pi / 7)) (-(Real.pi / 7)) =
      (⟨3, 4⟩ : Point) :=
  rotate_roundtrip defaultClock ⟨3, 4⟩ (Real.pi / 7)

/-- C10: for all valid second-hand parameters and every sub-minute time
`t ∈ [0, 60)`, the seconds angle is nonnegative: the hand never swings to a
negative angle behind the minute mark. -/
theorem secondsAngle_nonneg (c : Clock) (now : TimeSample)
    (hd0 : 0 < c.behavior_.second_hand.decay)
    (hd1 : c.behavior_.second_hand.decay < 1)
    (hds : 0 < c.behavior_.second_hand.decay_seconds)
    (hp0 : 0 ≤ c.behavior_.second_hand.pause_seconds)
    (hp1 : c.behavior_.second_hand.pause_seconds < 60)
    (ht0 : 0 ≤ subMinuteSeconds now) (ht1 : subMinuteSeconds now < 60) :
    0 ≤ c.computeSecondsAngle now := by
  have hcyc : (0 : ℝ) < 60 - c.behavior_.second_hand.pause_seconds := by linarith
  have hv : (0 : ℝ) ≤ 2 * Real.pi / (60 - c.behavior_.second_hand.pause_seconds) :=
    div_nonneg (by positivity) hcyc.le
  have hl : Real.log c.behavior_.second_hand.decay /
      c.behavior_.second_hand.decay_seconds < 0 :=
    div_neg_of_neg_of_pos (Real.log_neg hd0 hd1) hds
  rcases le_or_lt (60 - c.behavior_.second_hand.pause_seconds)
      (subMinuteSeconds now) with h | h
  · rw [computeSecondsAngle_of_ge c now h]
    exact mul_nonneg (mul_nonneg hv (by linarith)) (Real.exp_pos _).le
  · rw [computeSecondsAngle_of_lt c now h]
    refine mul_nonneg (mul_nonneg hv ht0) ?_
    have : Real.exp (Real.log c.behavior_.second_hand.decay /
        c.behavior_.second_hand.decay_seconds * subMinuteSeconds now) ≤ 1 :=
      Real.exp_le_one_iff.mpr (mul_nonpos_iff.mpr (Or.inr ⟨hl.le, ht0⟩))
    linarith

/-- Witness for C10: the default clock deep in the pause phase. -/
theorem secondsAngle_nonneg_witness :
    0 ≤ defaultClock.computeSecondsAngle ⟨0, 0, 59, 0⟩ :=
  secondsAngle_nonneg defaultClock ⟨0, 0, 59, 0⟩
    (by norm_num [defaultClock, DEFAULT_OPTIONS_behavior])
    (by norm_num [defaultClock, DEFAULT_OPTIONS_behavior])
    (by norm_num [defaultClock, DEFAULT_OPTIONS_behavior])
    (by norm_num [defaultClock, DEFAULT_OPTIONS_behavior])
    (by norm_num [defaultClock, DEFAULT_OPTIONS_behavior])
    (by norm_num [subMinuteSeconds])
    (by norm_num [subMinuteSeconds])

/-- C9: the three angle computations are purely functional: any two clocks
with equal behavior configuration and any two time samples with equal hour,
minute, second and millisecond components yield equal values from
`computeSecondsAngle`, `computeMinutesAngle` and `computeHoursAngle`
(regardless of shape, style or any other field), and a call modifies no
state of the clock. -/
theorem angles_pure (c cc : Clock) (now nw : TimeSample)
    (hb : c.behavior_ = cc.behavior_)
    (hh : now.hours = nw.hours) (hm : now.minutes = nw.minutes)
    (hs : now.seconds = nw.seconds) (hms : now.milliseconds = nw.milliseconds) :
    c.computeSecondsAngle now = cc.computeSecondsAngle nw ∧
    c.computeMinutesAngle now = cc.computeMinutesAngle nw ∧
    c.computeHoursAngle now = cc.computeHoursAngle nw ∧
    (c.computeSecondsAngleCall now).2 = c ∧
    (c.computeMinutesAngleCall now).2 = c ∧
    (c.computeHoursAngleCall now).2 = c := by
  obtain ⟨h1, m1, s1, ms1⟩ := now
  obtain ⟨h2, m2, s2, ms2⟩ := nw
  simp only at hh hm hs hms
  subst hh hm hs hms
  refine ⟨?_, ?_, ?_, rfl, rfl, rfl⟩
  · simp only [Clock.computeSecondsAngle, hb]
  · simp only [Clock.computeMinutesAngle, hb]
  · simp only [Clock.computeHoursAngle, hb]

/-- Witness for C9: two clocks differing in style and margin but sharing the
default behavior agree on all three angles at 1:02:03.004. -/
theorem angles_pure_witness :
    defaultClock.computeSecondsAngle ⟨1, 2, 3, 4⟩ =
      (Clock.mk 50 0.25 DEFAULT_OPTIONS_shape DEFAULT_OPTIONS_behavior
        { DEFAULT_OPTIONS_style with background := "blue" }).computeSecondsAngle
        ⟨1, 2, 3, 4⟩ ∧
    defaultClock.computeMinutesAngle ⟨1, 2, 3, 4⟩ =
      (Clock.mk 50 0.25 DEFAULT_OPTIONS_shape DEFAULT_OPTIONS_behavior
        { DEFAULT_OPTIONS_style with background := "blue" }).computeMinutesAngle
        ⟨1, 2, 3, 4⟩ ∧
    defaultClock.computeHoursAngle ⟨1, 2, 3, 4⟩ =
      (Clock.mk 50 0.25 DEFAULT_OPTIONS_shape DEFAULT_OPTIONS_behavior
        { DEFAULT_OPTIONS_style with background := "blue" }).computeHoursAngle
        ⟨1, 2, 3, 4⟩ ∧
    (defaultClock.computeSecondsAngleCall ⟨1, 2, 3, 4⟩).2 = defaultClock ∧
    (defaultClock.computeMinutesAngleCall ⟨1, 2, 3, 4⟩).2 = defaultClock ∧
    (defaultClock.computeHoursAngleCall ⟨1, 2, 3, 4⟩).2 = defaultClock :=
  angles_pure defaultClock
    (Clock.mk 50 0.25 DEFAULT_OPTIONS_shape DEFAULT_OPTIONS_behavior
      { DEFAULT_OPTIONS_style with background := "blue" })
    ⟨1, 2, 3, 4⟩ ⟨1, 2, 3, 4⟩ rfl rfl rfl rfl rfl

/-- C4: for every choice of valid second-hand parameters, at the branch
boundary `t = cycle` the phase-2 formula evaluates to exactly `0` (the hand
lands on the mark), while the phase-1 value `v*cycle*(1 - exp(λ*cycle))` is
nonzero, so the seconds angle has a jump discontinuity at `t = cycle`. -/
theorem secondsAngle_boundary_jump (c : Clock)
    (hd0 : 0 < c.behavior_.second_hand.decay)
    (hd1 : c.behavior_.second_hand.decay < 1)
    (hds : 0 < c.behavior_.second_hand.decay_seconds)
    (hp0 : 0 ≤ c.behavior_.second_hand.pause_seconds)
    (hp1 : c.behavior_.second_hand.pause_seconds < 60) :
    (∀ now : TimeSample,
      subMinuteSeconds now = 60 - c.behavior_.second_hand.pause_seconds →
      c.computeSecondsAngle now = 0) ∧
    2 * Real.pi / (60 - c.behavior_.second_hand.pause_seconds) *
      (60 - c.behavior_.second_hand.pause_seconds) *
      (1 - Real.exp (Real.log c.behavior_.second_hand.decay /
        c.behavior_.second_hand.decay_seconds *
        (60 - c.behavior_.second_hand.pause_seconds))) ≠ 0 ∧
    ¬ ContinuousAt (fun t : ℝ => c.computeSecondsAngle ⟨0, 0, t, 0⟩)
      (60 - c.behavior_.second_hand.pause_seconds) := by
  have hcyc : (0 : ℝ) < 60 - c.behavior_.second_hand.pause_seconds := by linarith
  have hl : Real.log c.behavior_.second_hand.decay /
      c.behavior_.second_hand.decay_seconds < 0 :=
    div_neg_of_neg_of_pos (Real.log_neg hd0 hd1) hds
  refine ⟨fun now hnow => ?_, ?_, ?_⟩
  · rw [computeSecondsAngle_of_ge c now (le_of_eq hnow.symm), hnow]
    simp
  · have hexp : Real.exp (Real.log c.behavior_.second_hand.decay /
        c.behavior_.second_hand.decay_seconds *
        (60 - c.behavior_.second_hand.pause_seconds)) < 1 :=
      Real.exp_lt_one_iff.mpr (mul_neg_of_neg_of_pos hl hcyc)
    have hpos : 0 < 2 * Real.pi / (60 - c.behavior_.second_hand.pause_seconds) *
        (60 - c.behavior_.second_hand.pause_seconds) *
        (1 - Real.exp (Real.log c.behavior_.second_hand.decay /
          c.behavior_.second_hand.decay_seconds *
          (60 - c.behavior_.second_hand.pause_seconds))) :=
      mul_pos (mul_pos (div_pos (by positivity) hcyc) hcyc) (by linarith)
    exact ne_of_gt hpos
  · exact secondsAngle_not_continuousAt c 0 0 hd0 hd1 hds hp1

/-- Witness for C4: the default clock lands exactly on the mark at
`t = cycle = 58.5`. -/
theorem secondsAngle_boundary_jump_witness :
    defaultClock.computeSecondsAngle ⟨0, 0, 58.5, 0⟩ = 0 :=
  (secondsAngle_boundary_jump defaultClock
      (by norm_num [defaultClock, DEFAULT_OPTIONS_behavior])
      (by norm_num [defaultClock, DEFAULT_OPTIONS_behavior])
      (by norm_num [defaultClock, DEFAULT_OPTIONS_behavior])
      (by norm_num [defaultClock, DEFAULT_OPTIONS_behavior])
      (by norm_num [defaultClock, DEFAULT_OPTIONS_behavior])).1
    ⟨0, 0, 58.5, 0⟩
    (by norm_num [subMinuteSeconds, defaultClock, DEFAULT_OPTIONS_behavior])

/-- C6: for all valid behavior parameters, the minutes angle and the hours
angle are continuous functions of `t` over `[0, 60)` for fixed minute and
hour; the only discontinuity among the three angle functions is the single
second-hand jump at `t = cycle`. -/
theorem angles_continuity (c : Clock) (hr mi : ℝ)
    (hsd0 : 0 < c.behavior_.second_hand.decay)
    (hsd1 : c.behavior_.second_hand.decay < 1)
    (hsds : 0 < c.behavior_.second_hand.decay_seconds)
    (hsp0 : 0 ≤ c.behavior_.second_hand.pause_seconds)
    (hsp1 : c.behavior_.second_hand.pause_seconds < 60)
    (hmd0 : 0 < c.behavior_.minute_hand.decay)
    (hmd1 : c.behavior_.minute_hand.decay < 1)
    (hmds : 0 < c.behavior_.minute_hand.decay_seconds)
    (hmf : 0 < c.behavior_.minute_hand.frequency)
    (hhd0 : 0 < c.behavior_.hour_hand.decay)
    (hhd1 : c.behavior_.hour_hand.decay < 1)
    (hhds : 0 < c.behavior_.hour_hand.decay_seconds) :
    ContinuousOn (fun t : ℝ => c.computeMinutesAngle ⟨hr, mi, t, 0⟩)
      (Set.Ico 0 60) ∧
    ContinuousOn (fun t : ℝ => c.computeHoursAngle ⟨hr, mi, t, 0⟩)
      (Set.Ico 0 60) ∧
    (∀ t ∈ Set.Ico (0 : ℝ) 60,
      t ≠ 60 - c.behavior_.second_hand.pause_seconds →
      ContinuousAt (fun t : ℝ => c.computeSecondsAngle ⟨hr, mi, t, 0⟩) t) ∧
    ¬ ContinuousAt (fun t : ℝ => c.computeSecondsAngle ⟨hr, mi, t, 0⟩)
      (60 - c.behavior_.second_hand.pause_seconds) :=
  ⟨(continuous_minutesAngleReal c hr mi).continuousOn,
   (continuous_hoursAngleReal c hr mi).continuousOn,
   fun t _ ht => secondsAngle_continuousAt_of_ne c hr mi t ht,
   secondsAngle_not_continuousAt c hr mi hsd0 hsd1 hsds hsp1⟩

/-- Witness for C6: at the default clock the minutes angle is continuous on
`[0, 60)` and the seconds angle is continuous at `t = 10`. -/
theorem angles_continuity_witness :
    ContinuousOn (fun t : ℝ => defaultClock.computeMinutesAngle ⟨0, 0, t, 0⟩)
      (Set.Ico 0 60) ∧
    ContinuousAt (fun t : ℝ => defaultClock.computeSecondsAngle ⟨0, 0, t, 0⟩)
      10 := by
  have h := angles_continuity defaultClock 0 0
    (by norm_num [defaultClock, DEFAULT_OPTIONS_behavior])
    (by norm_num [defaultClock, DEFAULT_OPTIONS_behavior])
    (by norm_num [defaultClock, DEFAULT_OPTIONS_behavior])
    (by norm_num [defaultClock, DEFAULT_OPTIONS_behavior])
    (by norm_num [defaultClock, DEFAULT_OPTIONS_behavior])
    (by norm_num [defaultClock, DEFAULT_OPTIONS_behavior])
    (by norm_num [defaultClock, DEFAULT_OPTIONS_behavior])
    (by norm_num [defaultClock, DEFAULT_OPTIONS_behavior])
    (by norm_num [defaultClock, DEFAULT_OPTIONS_behavior])
    (by norm_num [defaultClock, DEFAULT_OPTIONS_behavior])
    (by norm_num [defaultClock, DEFAULT_OPTIONS_behavior])
    (by norm_num [defaultClock, DEFAULT_OPTIONS_behavior])
  exact ⟨h.1, h.2.2.1 10 (by norm_num)
    (by norm_num [defaultClock, DEFAULT_OPTIONS_behavior])⟩

/-- Numerical bounds on `exp(-ln(10)/5) = 10^(-1/5)`, the decay fraction
reached at `t = 0.1` with the default second-hand parameters. -/
lemma exp_neg_log_ten_div_five_bounds :
    0.6309 < Real.exp (-Real.log 10 / 5) ∧
      Real.exp (-Real.log 10 / 5) < 0.631 := by
  have hEpos : 0 < Real.exp (-Real.log 10 / 5) := Real.exp_pos _
  have hcast : ((5 : ℕ) : ℝ) * (-Real.log 10 / 5) = -Real.log 10 := by
    push_cast
    ring
  have hE5 : Real.exp (-Real.log 10 / 5) ^ 5 = 1 / 10 := by
    rw [← Real.exp_nat_mul, hcast, Real.exp_neg,
      Real.exp_log (by norm_num : (0 : ℝ) < 10)]
    norm_num
  constructor
  · by_contra hcon
    push_neg at hcon
    have hb : Real.exp (-Real.log 10 / 5) ^ 5 ≤ (0.6309 : ℝ) ^ 5 :=
      pow_le_pow_left₀ hEpos.le hcon 5
    rw [hE5] at hb
    norm_num at hb
  · by_contra hcon
    push_neg at hcon
    have hb : (0.631 : ℝ) ^ 5 ≤ Real.exp (-Real.log 10 / 5) ^ 5 :=
      pow_le_pow_left₀ (by norm_num) hcon 5
    rw [hE5] at hb
    norm_num at hb

/-- The default clock's seconds angle a tenth of a second into the minute,
in closed form: `2π/58.5 * 0.1 * (1 - 10^(-1/5))`. -/
lemma default_secondsAngle_tenth :
    defaultClock.computeSecondsAngle ⟨0, 0, 0, 100⟩ =
      Real.pi * (1 - Real.exp (-Real.log 10 / 5)) * 2 / 585 := by
  rw [computeSecondsAngle_of_lt defaultClock ⟨0, 0, 0, 100⟩
    (by norm_num [subMinuteSeconds, defaultClock, DEFAULT_OPTIONS_behavior])]
  have hpause : defaultClock.behavior_.second_hand.pause_seconds = 1.5 := rfl
  have hdecay : defaultClock.behavior_.second_hand.decay = 0.1 := rfl
  have hds : defaultClock.behavior_.second_hand.decay_seconds = 0.5 := rfl
  have hsub : subMinuteSeconds ⟨(0 : ℝ), 0, 0, 100⟩ = 1 / 10 := by
    norm_num [subMinuteSeconds]
  rw [hpause, hdecay, hds, hsub]
  have hlog : Real.log (0.1 : ℝ) = -Real.log 10 := by
    rw [show (0.1 : ℝ) = 10⁻¹ by norm_num, Real.log_inv]
  rw [hlog]
  have harg : -Real.log 10 / (0.5 : ℝ) * (1 / 10) = -Real.log 10 / 5 := by
    ring
  rw [harg]
  ring

/-- C5 counterexample: with the default second-hand behavior the seconds
angle at `t = 0.1` is about `0.003963` radians, which is NOT within `1e-4`
of the spec's literal `0.00441`. -/
theorem default_scenario_literal_false :
    ¬ |defaultClock.computeSecondsAngle ⟨0, 0, 0, 100⟩ - 0.00441| ≤ 1e-4 := by
  rw [default_secondsAngle_tenth]
  obtain ⟨hE1, hE2⟩ := exp_neg_log_ten_div_five_bounds
  have hE1' : (0 : ℝ) < 1 - Real.exp (-Real.log 10 / 5) := by linarith
  have hub : Real.pi * (1 - Real.exp (-Real.log 10 / 5)) <
      3.141593 * 0.3691 :=
    mul_lt_mul Real.pi_lt_d6 (by linarith) hE1' (by norm_num)
  intro hcon
  have h1 := (abs_le.mp hcon).1
  nlinarith [hub]

/-- C5 amended: with the default second-hand behavior, the seconds angle at
`t = 0.1` is within `1e-4` of `0.00396` radians (the correct value of
`(2π/58.5) * 0.1 * (1 - exp(ln(0.1)/0.5 * 0.1)) ≈ 0.003963`). -/
theorem default_scenario_value :
    |defaultClock.computeSecondsAngle ⟨0, 0, 0, 100⟩ - 0.00396| ≤ 1e-4 := by
  rw [default_secondsAngle_tenth]
  obtain ⟨hE1, hE2⟩ := exp_neg_log_ten_div_five_bounds
  have hE1' : (0 : ℝ) < 1 - Real.exp (-Real.log 10 / 5) := by linarith
  have hub : Real.pi * (1 - Real.exp (-Real.log 10 / 5)) <
      3.141593 * 0.3691 :=
    mul_lt_mul Real.pi_lt_d6 (by linarith) hE1' (by norm_num)
  have hlb : (3.141592 : ℝ) * 0.369 <
      Real.pi * (1 - Real.exp (-Real.log 10 / 5)) :=
    mul_lt_mul'' Real.pi_gt_d6 (by linarith) (by norm_num) (by norm_num)
  rw [abs_le]
  constructor
  · nlinarith [hlb]
  · nlinarith [hub]

/-- C8: for all valid behavior parameters, as `t` grows the minutes angle
converges to its base target `(π/30)*minuteOfHour` and the hours angle to
`(π/360)*(minuteOfHour + 60*hourOfDay)`: the deviation `|angle(t) - angle0|`
is bounded by a tolerance governed by `exp(λ*t)`, which tends to `0`. -/
theorem angles_settling (c : Clock) (hr mi : ℝ)
    (hmd0 : 0 < c.behavior_.minute_hand.decay)
    (hmd1 : c.behavior_.minute_hand.decay < 1)
    (hmds : 0 < c.behavior_.minute_hand.decay_seconds)
    (hmf : 0 < c.behavior_.minute_hand.frequency)
    (hhd0 : 0 < c.behavior_.hour_hand.decay)
    (hhd1 : c.behavior_.hour_hand.decay < 1)
    (hhds : 0 < c.behavior_.hour_hand.decay_seconds) :
    (∀ t : ℝ,
      |c.computeMinutesAngle ⟨hr, mi, t, 0⟩ - Real.pi / 30 * mi| ≤
        Real.pi / 30 *
          (|Real.log c.behavior_.minute_hand.decay /
              c.behavior_.minute_hand.decay_seconds| /
            (2 * Real.pi * c.behavior_.minute_hand.frequency) + 1) *
          Real.exp (Real.log c.behavior_.minute_hand.decay /
            c.behavior_.minute_hand.decay_seconds * t)) ∧
    (∀ t : ℝ, 0 ≤ t →
      |c.computeHoursAngle ⟨hr, mi, t, 0⟩ - (mi + 60 * hr) * (Real.pi / 360)| ≤
        Real.pi / 360 *
          (|Real.log c.behavior_.hour_hand.decay /
              c.behavior_.hour_hand.decay_seconds| * t + 1) *
          Real.exp (Real.log c.behavior_.hour_hand.decay /
            c.behavior_.hour_hand.decay_seconds * t)) ∧
    Filter.Tendsto (fun t : ℝ =>
        Real.pi / 30 *
          (|Real.log c.behavior_.minute_hand.decay /
              c.behavior_.minute_hand.decay_seconds| /
            (2 * Real.pi * c.behavior_.minute_hand.frequency) + 1) *
          Real.exp (Real.log c.behavior_.minute_hand.decay /
            c.behavior_.minute_hand.decay_seconds * t))
      Filter.atTop (nhds 0) ∧
    Filter.Tendsto (fun t : ℝ =>
        Real.pi / 360 *
          (|Real.log c.behavior_.hour_hand.decay /
              c.behavior_.hour_hand.decay_seconds| * t + 1) *
          Real.exp (Real.log c.behavior_.hour_hand.decay /
            c.behavior_.hour_hand.decay_seconds * t))
      Filter.atTop (nhds 0) ∧
    Filter.Tendsto (fun t : ℝ => c.computeMinutesAngle ⟨hr, mi, t, 0⟩)
      Filter.atTop (nhds (Real.pi / 30 * mi)) ∧
    Filter.Tendsto (fun t : ℝ => c.computeHoursAngle ⟨hr, mi, t, 0⟩)
      Filter.atTop (nhds ((mi + 60 * hr) * (Real.pi / 360))) := by
  have hLm : Real.log c.behavior_.minute_hand.decay /
      c.behavior_.minute_hand.decay_seconds < 0 :=
    div_neg_of_neg_of_pos (Real.log_neg hmd0 hmd1) hmds
  have hLh : Real.log c.behavior_.hour_hand.decay /
      c.behavior_.hour_hand.decay_seconds < 0 :=
    div_neg_of_neg_of_pos (Real.log_neg hhd0 hhd1) hhds
  have hWm : 0 < 2 * Real.pi * c.behavior_.minute_hand.frequency :=
    mul_pos (by positivity) hmf
  refine ⟨fun t => minutesAngle_deviation_bound c hr mi t hWm,
    fun t ht => hoursAngle_deviation_bound c hr mi t ht,
    tendsto_const_mul_exp _ _ hLm,
    tendsto_affine_mul_exp _ _ _ hLh, ?_, ?_⟩
  · have hwob : Filter.Tendsto (fun t : ℝ =>
        c.computeMinutesAngle ⟨hr, mi, t, 0⟩ - Real.pi / 30 * mi)
        Filter.atTop (nhds 0) := by
      refine squeeze_zero_norm (fun t => ?_)
        (tendsto_const_mul_exp (Real.pi / 30 *
          (|Real.log c.behavior_.minute_hand.decay /
              c.behavior_.minute_hand.decay_seconds| /
            (2 * Real.pi * c.behavior_.minute_hand.frequency) + 1)) _ hLm)
      rw [Real.norm_eq_abs]
      exact minutesAngle_deviation_bound c hr mi t hWm
    have h3 := hwob.add_const (Real.pi / 30 * mi)
    rw [zero_add] at h3
    exact h3.congr fun t => by ring
  · have hwob : Filter.Tendsto (fun t : ℝ =>
        c.computeHoursAngle ⟨hr, mi, t, 0⟩ - (mi + 60 * hr) * (Real.pi / 360))
        Filter.atTop (nhds 0) := by
      refine squeeze_zero_norm' ?_
        (tendsto_affine_mul_exp (Real.pi / 360)
          (|Real.log c.behavior_.hour_hand.decay /
            c.behavior_.hour_hand.decay_seconds|) _ hLh)
      filter_upwards [Filter.eventually_ge_atTop (0 : ℝ)] with t ht
      rw [Real.norm_eq_abs]
      exact hoursAngle_deviation_bound c hr mi t ht
    have h3 := hwob.add_const ((mi + 60 * hr) * (Real.pi / 360))
    rw [zero_add] at h3
    exact h3.congr fun t => by ring

/-- Witness for C8: at the default clock with minute 30 of hour 1, the
minutes angle settles onto its base target `π`. -/
theorem angles_settling_witness :
    Filter.Tendsto (fun t : ℝ => defaultClock.computeMinutesAngle ⟨1, 30, t, 0⟩)
      Filter.atTop (nhds (Real.pi / 30 * 30)) :=
  (angles_settling defaultClock 1 30
      (by norm_num [defaultClock, DEFAULT_OPTIONS_behavior])
      (by norm_num [defaultClock, DEFAULT_OPTIONS_behavior])
      (by norm_num [defaultClock, DEFAULT_OPTIONS_behavior])
      (by norm_num [defaultClock, DEFAULT_OPTIONS_behavior])
      (by norm_num [defaultClock, DEFAULT_OPTIONS_behavior])
      (by norm_num [defaultClock, DEFAULT_OPTIONS_behavior])
      (by norm_num [defaultClock, DEFAULT_OPTIONS_behavior])).2.2.2.2.1

end ClockJS
